import Mathlib

/-!
Shallow embedding of the Fixed64 lookup-table generator scripts
(`scripts/generate_atan_lut.py`, `generate_acos_lut.py`, `generate_sin_lut.py`,
`generate_log2_lut.py`, `generate_tan_lut.py`, `generate_atan2_lut.py`,
`generate_constants.py`, `generate_cordic_table.py`).

Each generator evaluates a reference function with the `mpmath` library at high
working precision, truncates the sampled values into 64-bit fixed-point tables,
and emits C++ evaluator functions.  We embed:

* the table construction (the 100-digit `mpmath` oracle is idealized as the
  exact real function; sampled values are truncated with Python `int()`,
  modelled by `pythonInt`),
* the emitted evaluator functions, as integer-valued Lean functions.  Machine
  `int64_t` arithmetic is modelled on unbounded `ℤ` (no claim under study is
  about 64-bit wrap-around): C++ `>>` on signed values is an arithmetic shift,
  i.e. floor division, modelled by `Int.ediv` (`/` on `ℤ`); C++ `&` with an
  all-ones low-bit mask is `Int.emod` (`%`); C++ `/` and C++ `%` truncate
  toward zero, modelled by `Int.tdiv` / `Int.tmod`.

The emitted evaluators call `Primitives::Fixed64Mul` / `Fixed64Div` from
`primitives.h`, which is not among the sources.  Those two are modelled from
the spec (§4.1), see `fixed64Mul` / `fixed64Div` below.
-/

namespace Fixed64

open Real

/-- Python `int()` applied to a real value: truncation toward zero.
All generator scripts use `int(value * scale)` ("Truncate instead of round"). -/
noncomputable def pythonInt (r : ℝ) : ℤ :=
  if 0 ≤ r then ⌊r⌋ else -⌊-r⌋

/-- Modelled from the spec: `primitives.h` is not among the sources; §4.1 says
`mul(a,b,F) = round(a·b / 2^F) without intermediate overflow`.  Rounding is
realized as round-half-up, `⌊(a·b + 2^F/2) / 2^F⌋`. -/
def fixed64Mul (a b : ℤ) (K : ℕ) : ℤ :=
  (a * b + 2 ^ K / 2) / 2 ^ K

/-- Modelled from the spec: `primitives.h` is not among the sources; §4.1 says
`div(a,b,F) = round(a·2^F / b); defined saturated result when b=0 (never a
fault)`.  Rounding is realized as round-half-up after normalizing the
denominator sign; the saturated result is the extreme `int64_t` value. -/
def fixed64Div (a b : ℤ) (K : ℕ) : ℤ :=
  if b = 0 then (if a < 0 then -(2 ^ 63) else 2 ^ 63 - 1)
  else
    let n := if 0 < b then a * 2 ^ K else -(a * 2 ^ K)
    let d := if 0 < b then b else -b
    (2 * n + d) / (2 * d)

/-- Format conversion emitted identically by every generator (e.g.
`generate_acos_lut.py` lines 151-158 and 242-249):
`if (fIn < fOut) v <<= (fOut - fIn); else v >>= (fIn - fOut);`
(left shift when converting to a larger fraction-bit count, arithmetic right
shift when converting to a smaller one; no-op when equal). -/
def convertFp (v : ℤ) (fIn fOut : ℕ) : ℤ :=
  if fIn < fOut then v * 2 ^ (fOut - fIn) else v / 2 ^ (fIn - fOut)

/-! Tables and evaluators of `generate_atan_lut.py`.

Parameters: `n` = `entries` (default 512), `K` = `fraction_bits` (default 32,
the internal format `kOutputFractionBits` of the emitted evaluators). -/

/-- Table entry of `kAtanLut` (`generate_atan_lut.py` lines 33-41):
`x = i/(entries-1)`, `scaled_value = int(atan(x) * 2^fraction_bits)`. -/
noncomputable def kAtanLut (n K : ℕ) (i : ℤ) : ℤ :=
  pythonInt (Real.arctan ((i : ℝ) / ((n : ℝ) - 1)) * 2 ^ K)

/-- Body of the emitted `LookupAtanFast` (`generate_atan_lut.py` lines 95-168)
on the already-converted internal-format value `c`: range reduction to
`[0, 1]`, index arithmetic, clamp, and linear interpolation; every return
value is converted back to the caller format `F`. -/
noncomputable def atanFastEval (n K : ℕ) (c : ℤ) (F : ℕ) : ℤ :=
  if c ≤ 0 then 0
  else if 2 ^ K ≤ c then convertFp (kAtanLut n K ((n : ℤ) - 1)) K F
  else
    let idxScaled := fixed64Mul c (((n : ℤ) - 1) * 2 ^ K) K
    let idx := idxScaled / 2 ^ K
    let t := idxScaled % 2 ^ K
    if (n : ℤ) - 1 ≤ idx then convertFp (kAtanLut n K ((n : ℤ) - 1)) K F
    else
      let y0 := kAtanLut n K idx
      let y1 := kAtanLut n K (idx + 1)
      convertFp (y0 + fixed64Mul (y1 - y0) t K) K F

/-- Body of the emitted `LookupAtanFast` (`generate_atan_lut.py` lines 68-168)
after the leading sign reduction, applied to the absolute value `a`:
input-format conversion followed by the evaluation body. -/
noncomputable def lookupAtanFastPos (n K : ℕ) (a : ℤ) (F : ℕ) : ℤ :=
  atanFastEval n K (convertFp a F K) F

/-- Emitted `LookupAtanFast` (`generate_atan_lut.py` lines 68-168): negative
input is reduced by `x = -x; is_negative = true`, and the sign is re-applied
to every returned value. -/
noncomputable def LookupAtanFast (n K : ℕ) (x : ℤ) (F : ℕ) : ℤ :=
  if x < 0 then -lookupAtanFastPos n K (-x) F else lookupAtanFastPos n K x F

/-- Body of the emitted `LookupAtan` (Hermite version, `generate_atan_lut.py`
lines 208-334) on the already-converted internal-format value `c`. -/
noncomputable def atanHermiteEval (n K : ℕ) (c : ℤ) (F : ℕ) : ℤ :=
  if c ≤ 0 then 0
  else if 2 ^ K ≤ c then convertFp (kAtanLut n K ((n : ℤ) - 1)) K F
  else
    let idxScaled := fixed64Mul c (((n : ℤ) - 1) * 2 ^ K) K
    let idx := idxScaled / 2 ^ K
    let t := idxScaled % 2 ^ K
    if (n : ℤ) - 1 ≤ idx then convertFp (kAtanLut n K ((n : ℤ) - 1)) K F
    else
      let p0 := kAtanLut n K idx
      let p1 := kAtanLut n K (idx + 1)
      let x0 := fixed64Div (idx * 2 ^ K) ((n : ℤ) - 1) K
      let x1 := fixed64Div ((idx + 1) * 2 ^ K) ((n : ℤ) - 1) K
      let m0 := fixed64Div (2 ^ K) (2 ^ K + fixed64Mul x0 x0 K) K
      let m1 := fixed64Div (2 ^ K) (2 ^ K + fixed64Mul x1 x1 K) K
      let m0s := fixed64Mul m0 (p1 - p0) K
      let m1s := fixed64Mul m1 (p1 - p0) K
      let aa := (p0 - p1) * 2 + m0s + m1s
      let bb := -(p0 - p1) * 3 - m0s * 2 - m1s
      let r := p0 + fixed64Mul t (m0s + fixed64Mul t (bb + fixed64Mul t aa K) K) K
      convertFp r K F

/-- Body of the emitted `LookupAtan` (`generate_atan_lut.py` lines 171-334)
after the leading sign reduction, applied to the absolute value `a`. -/
noncomputable def lookupAtanPos (n K : ℕ) (a : ℤ) (F : ℕ) : ℤ :=
  atanHermiteEval n K (convertFp a F K) F

/-- Emitted `LookupAtan` (`generate_atan_lut.py` lines 171-334). -/
noncomputable def LookupAtan (n K : ℕ) (x : ℤ) (F : ℕ) : ℤ :=
  if x < 0 then -lookupAtanPos n K (-x) F else lookupAtanPos n K x F

/-! Tables and evaluators of `generate_acos_lut.py`.

Parameters: `n` = `entries` (default 512), `K` = `fraction_bits` (default 40). -/

/-- Chebyshev sample point of `generate_acos_lut.py` (lines 33-44): the nodes
`(cos(π(2j+1)/(2n)) + 1)/2` are listed in reverse order, so index `i` holds
the node for `j = n - 1 - i`, ordered from smallest to largest. -/
noncomputable def acosNode (n : ℕ) (i : ℤ) : ℝ :=
  (Real.cos (Real.pi * (2 * ((n : ℝ) - 1 - (i : ℝ)) + 1) / (2 * (n : ℝ))) + 1) / 2

/-- Table entry of `kAcosXValues` (`generate_acos_lut.py` lines 79-81). -/
noncomputable def kAcosXValues (n K : ℕ) (i : ℤ) : ℤ :=
  pythonInt (acosNode n i * 2 ^ K)

/-- Table entry of `kAcosLut` (`generate_acos_lut.py` lines 52-54):
`int(acos(x_i) * 2^fraction_bits)`. -/
noncomputable def kAcosLut (n K : ℕ) (i : ℤ) : ℤ :=
  pythonInt (Real.arccos (acosNode n i) * 2 ^ K)

/-- Scaled π constant `int(pi * scale)` emitted as `kPi` by the acos and sin
generators (`generate_acos_lut.py` line 49, `generate_sin_lut.py` line 73). -/
noncomputable def kPiFp (K : ℕ) : ℤ :=
  pythonInt (Real.pi * 2 ^ K)

/-- Binary-search loop of the emitted `FindAcosIndex`
(`generate_acos_lut.py` lines 109-128): `mid = left + (right-left)/2`;
move `left` past `mid` when the table value is below `x`, move `right` below
`mid` when it is above, return `mid` on an exact hit and `right` on exit. -/
noncomputable def acosSearch (n K : ℕ) (x left right : ℤ) : ℤ :=
  if h : left ≤ right then
    let mid := left + (right - left) / 2
    if kAcosXValues n K mid < x then acosSearch n K x (mid + 1) right
    else if x < kAcosXValues n K mid then acosSearch n K x left (mid - 1)
    else mid
  else right
termination_by (right + 1 - left).toNat
decreasing_by
  · have h0 : 0 ≤ (right - left) / 2 := Int.ediv_nonneg (by omega) (by norm_num)
    have h1 : (right - left) / 2 ≤ right - left := Int.ediv_le_self _ (by omega)
    omega
  · have h0 : 0 ≤ (right - left) / 2 := Int.ediv_nonneg (by omega) (by norm_num)
    have h1 : (right - left) / 2 ≤ right - left := Int.ediv_le_self _ (by omega)
    omega

/-- Emitted `FindAcosIndex` (`generate_acos_lut.py` lines 94-129): `x ≥ 1.0`
returns the last index, `x ≤ 0` returns index 0, otherwise binary search. -/
noncomputable def FindAcosIndex (n K : ℕ) (x : ℤ) (obits : ℕ) : ℤ :=
  if 2 ^ obits ≤ x then (n : ℤ) - 1
  else if x ≤ 0 then 0
  else acosSearch n K x 0 ((n : ℤ) - 1)

/-- Body of the emitted `LookupAcos` (`generate_acos_lut.py` lines 261-406)
after the leading sign reduction (`neg` records `is_negative`): extreme-value
path for `x ≥ 1.0`, exact-match path, and the quadratic Lagrange path with
mirrored-slope extrapolation at the boundary brackets. -/
noncomputable def lookupAcosCore (n K : ℕ) (a : ℤ) (F : ℕ) (neg : Bool) : ℤ :=
  let x := convertFp a F K
  if 2 ^ K ≤ x then
    convertFp (if neg then kPiFp K else 0) K F
  else
    let idx := FindAcosIndex n K x K
    if kAcosXValues n K idx = x then
      convertFp (if neg then kPiFp K - kAcosLut n K idx else kAcosLut n K idx) K F
    else
      let y1 := kAcosLut n K idx
      let y2 := if idx < (n : ℤ) - 1 then kAcosLut n K (idx + 1)
                else y1 * 2 - kAcosLut n K (idx - 1)
      let y0 := if 0 < idx then kAcosLut n K (idx - 1) else y1 + (y1 - y2)
      let x1 := kAcosXValues n K idx
      let x0 := if 0 < idx then kAcosXValues n K (idx - 1)
                else x1 + (x1 - kAcosXValues n K (idx + 1))
      let x2 := if idx < (n : ℤ) - 1 then kAcosXValues n K (idx + 1)
                else x1 - (kAcosXValues n K (idx - 1) - x1)
      let l0 := fixed64Div (fixed64Mul (x - x1) (x - x2) K)
                  (fixed64Mul (x0 - x1) (x0 - x2) K) K
      let l1 := fixed64Div (fixed64Mul (x - x0) (x - x2) K)
                  (fixed64Mul (x1 - x0) (x1 - x2) K) K
      let l2 := fixed64Div (fixed64Mul (x - x0) (x - x1) K)
                  (fixed64Mul (x2 - x0) (x2 - x1) K) K
      let r := fixed64Mul y0 l0 K + fixed64Mul y1 l1 K + fixed64Mul y2 l2 K
      convertFp (if neg then kPiFp K - r else r) K F

/-- Emitted `LookupAcos` (`generate_acos_lut.py` lines 261-406): negative
input is reduced by `acos(-x) = π - acos(x)`. -/
noncomputable def LookupAcos (n K : ℕ) (x : ℤ) (F : ℕ) : ℤ :=
  if x < 0 then lookupAcosCore n K (-x) F true else lookupAcosCore n K x F false

/-! Tables and evaluators of `generate_sin_lut.py`.

The table size is fixed at 512 entries; `K` = `fraction_bits` (default 40). -/

/-- Table entry of `kSinLut` (`generate_sin_lut.py` lines 42-47):
`angle = i * (π/2)/(lut_size-1)`, `int(sin(angle) * scale)`. -/
noncomputable def kSinLut (K : ℕ) (i : ℤ) : ℤ :=
  pythonInt (Real.sin ((i : ℝ) * (Real.pi / 2 / 511)) * 2 ^ K)

/-- Scaled π constant of `generate_sin_lut.py` (line 73), the same value as
`kPiFp` (both scripts emit `int(pi * scale)`). -/
noncomputable def kSinPi (K : ℕ) : ℤ := kPiFp K

/-- Scaled π/2 constant of `generate_sin_lut.py` (line 74). -/
noncomputable def kSinPiOver2 (K : ℕ) : ℤ :=
  pythonInt (Real.pi / 2 * 2 ^ K)

/-- Scaled 2π constant of `generate_sin_lut.py` (line 75). -/
noncomputable def kSinTwoPi (K : ℕ) : ℤ :=
  pythonInt (Real.pi * 2 * 2 ^ K)

/-- Scaled `kLutInterval` constant of `generate_sin_lut.py` (lines 76-77):
`int((lut_size-1)/float(pi_over_2) * scale)`.  The script divides by the
double-precision rounding of π/2; that rounding is idealized to the exact
value here (no claim under study depends on the exact constant). -/
noncomputable def kSinLutInterval (K : ℕ) : ℤ :=
  pythonInt (511 / (Real.pi / 2) * 2 ^ K)

/-- Input conversion and angle reduction of the emitted `LookupSin`
(`generate_sin_lut.py` lines 214-243): normalize to `[0, 2π)` with C++ `%`
and a conditional add, fold `(π, 2π]` by `sin(x) = -sin(x-π)` recording the
sign flip, fold `(π/2, π]` by `sin(x) = sin(π-x)`. -/
noncomputable def sinAngleReduced (K : ℕ) (x : ℤ) (F : ℕ) : ℤ × Bool :=
  let c := convertFp x F K
  let c1 := Int.tmod c (kSinTwoPi K)
  let c2 := if c1 < 0 then c1 + kSinTwoPi K else c1
  let flip := kSinPi K < c2
  let c3 := if kSinPi K < c2 then c2 - kSinPi K else c2
  let c4 := if kSinPiOver2 K < c3 then kSinPi K - c3 else c3
  (c4, flip)

/-- Raw scaled index of the emitted `LookupSin` (`generate_sin_lut.py`
lines 246-252): `idx_scaled = Fixed64Mul(x, kLutInterval, K)`. -/
noncomputable def sinRawIdxScaled (K : ℕ) (x : ℤ) (F : ℕ) : ℤ :=
  fixed64Mul (sinAngleReduced K x F).1 (kSinLutInterval K) K

/-- Clamped table index of the emitted `LookupSin` (`generate_sin_lut.py`
lines 255-263): `idx = idx_scaled >> K`, clamped into `[0, 510]`. -/
noncomputable def sinClampIdx (K : ℕ) (x : ℤ) (F : ℕ) : ℤ :=
  let idx := sinRawIdxScaled K x F / 2 ^ K
  if idx < 0 then 0 else if (511 : ℤ) ≤ idx then 510 else idx

/-- Clamped fractional part of the emitted `LookupSin` (same clamp). -/
noncomputable def sinClampT (K : ℕ) (x : ℤ) (F : ℕ) : ℤ :=
  let idx := sinRawIdxScaled K x F / 2 ^ K
  if idx < 0 then 0
  else if (511 : ℤ) ≤ idx then 2 ^ K - 1
  else sinRawIdxScaled K x F % 2 ^ K

/-- Derivative index of the emitted `LookupSin` (`generate_sin_lut.py`
line 279): `cos_idx = kSinLut.size() - 1 - idx`. -/
noncomputable def sinCosIdx (K : ℕ) (x : ℤ) (F : ℕ) : ℤ :=
  511 - sinClampIdx K x F

/-- Right-endpoint derivative of the emitted `LookupSin` (`generate_sin_lut.py`
line 283): `m1 = cos_idx > 0 ? kSinLut[cos_idx - 1] : 0`. -/
noncomputable def sinM1 (K : ℕ) (x : ℤ) (F : ℕ) : ℤ :=
  if 0 < sinCosIdx K x F then kSinLut K (sinCosIdx K x F - 1) else 0

/-- The `kStepSize` constant of the emitted `LookupSin` (`generate_sin_lut.py`
lines 287-289): `Fixed64Div(kPiOver2, (size-1) << K, K)`. -/
noncomputable def sinStepSize (K : ℕ) : ℤ :=
  fixed64Div (kSinPiOver2 K) (511 * 2 ^ K) K

/-- Emitted `LookupSin` (Hermite version, `generate_sin_lut.py`
lines 189-342). -/
noncomputable def LookupSin (K : ℕ) (x : ℤ) (F : ℕ) : ℤ :=
  let idx := sinClampIdx K x F
  let t := sinClampT K x F
  let p0 := kSinLut K idx
  let p1 := kSinLut K (idx + 1)
  let m0 := fixed64Mul (kSinLut K (sinCosIdx K x F)) (sinStepSize K) K
  let m1 := fixed64Mul (sinM1 K x F) (sinStepSize K) K
  let aa := (p0 - p1) * 2 + m0 + m1
  let bb := -(p0 - p1) * 3 - m0 * 2 - m1
  let r := p0 + fixed64Mul t (m0 + fixed64Mul t (bb + fixed64Mul t aa K) K) K
  let r2 := if (sinAngleReduced K x F).2 then -r else r
  convertFp r2 K F

/-! Tables and evaluators of `generate_log2_lut.py`.

Parameters: `K` = `fraction_bits` (default 40), `ts` = `table_size`
(default 256). -/

/-- Table entry of `kLog2Lut` (`generate_log2_lut.py` lines 38-44):
`x = 1 + i/(table_size-1)`, `int(log2(x) * scale)`. -/
noncomputable def kLog2Lut (K ts : ℕ) (i : ℤ) : ℤ :=
  pythonInt (Real.logb 2 (1 + (i : ℝ) / ((ts : ℝ) - 1)) * 2 ^ K)

/-- Scaled ln 2 constant of `generate_log2_lut.py` (lines 91-92). -/
noncomputable def kLn2 (K : ℕ) : ℤ :=
  pythonInt (Real.log 2 * 2 ^ K)

/-- The C++ `INT64_MIN` sentinel returned by the log2 evaluators. -/
def kInt64Min : ℤ := -(2 ^ 63)

/-- Most significant bit position `63 - CountlZero(x)` used by the emitted
log2 evaluators; for `x > 0` this is `⌊log2 x⌋`.  (Only reached after the
`x ≤ 0` guard, so the junk value at `x ≤ 0` is irrelevant.) -/
def log2Msb (x : ℤ) : ℤ :=
  (Nat.log2 x.toNat : ℤ)

/-- Emitted `LookupLog2Fast` (`generate_log2_lut.py` lines 101-204): format
conversion, `INT64_MIN` sentinel for `x ≤ 0`, bit-scan normalization of the
mantissa into `[1, 2)`, linear interpolation, exponent re-addition. -/
noncomputable def LookupLog2Fast (K ts : ℕ) (x : ℤ) (F : ℕ) : ℤ :=
  let c := convertFp x F K
  if c ≤ 0 then kInt64Min
  else
    let shift := log2Msb c - K
    let mant := if 0 < shift then c / 2 ^ shift.toNat
                else if shift < 0 then c * 2 ^ (-shift).toNat else c
    let idx0 := (mant - 2 ^ K) * ((ts : ℤ) - 1) / 2 ^ K
    let t0 := (mant - 2 ^ K) * ((ts : ℤ) - 1) % 2 ^ K
    let idx := if idx0 < 0 then 0 else if (ts : ℤ) - 1 ≤ idx0 then (ts : ℤ) - 2 else idx0
    let t := if idx0 < 0 then 0 else if (ts : ℤ) - 1 ≤ idx0 then 2 ^ K - 1 else t0
    let p0 := kLog2Lut K ts idx
    let p1 := kLog2Lut K ts (idx + 1)
    convertFp (p0 + fixed64Mul (p1 - p0) t K + shift * 2 ^ K) K F

/-- Emitted `LookupLog2` (Hermite version, `generate_log2_lut.py`
lines 207-364). -/
noncomputable def LookupLog2 (K ts : ℕ) (x : ℤ) (F : ℕ) : ℤ :=
  let c := convertFp x F K
  if c ≤ 0 then kInt64Min
  else
    let shift := log2Msb c - K
    let mant := if 0 < shift then c / 2 ^ shift.toNat
                else if shift < 0 then c * 2 ^ (-shift).toNat else c
    let idx0 := (mant - 2 ^ K) * ((ts : ℤ) - 1) / 2 ^ K
    let t0 := (mant - 2 ^ K) * ((ts : ℤ) - 1) % 2 ^ K
    let idx := if idx0 < 0 then 0 else if (ts : ℤ) - 1 ≤ idx0 then (ts : ℤ) - 2 else idx0
    let t := if idx0 < 0 then 0 else if (ts : ℤ) - 1 ≤ idx0 then 2 ^ K - 1 else t0
    let p0 := kLog2Lut K ts idx
    let p1 := kLog2Lut K ts (idx + 1)
    let xi := 2 ^ K + Int.tdiv (idx * 2 ^ K) ((ts : ℤ) - 1)
    let xn := 2 ^ K + Int.tdiv ((idx + 1) * 2 ^ K) ((ts : ℤ) - 1)
    let m0a := fixed64Div (2 ^ K) (fixed64Mul xi (kLn2 K) K) K
    let m1a := fixed64Div (2 ^ K) (fixed64Mul xn (kLn2 K) K) K
    let step := fixed64Div (2 ^ K) (((ts : ℤ) - 1) * 2 ^ K) K
    let m0 := fixed64Mul m0a step K
    let m1 := fixed64Mul m1a step K
    let aa := (p0 - p1) * 2 + m0 + m1
    let bb := -(p0 - p1) * 3 - m0 * 2 - m1
    let r := p0 + fixed64Mul t (m0 + fixed64Mul t (bb + fixed64Mul t aa K) K) K
    convertFp (r + shift * 2 ^ K) K F

/-! Table and evaluator of `generate_atan2_lut.py` (table size 256, internal
format Q31.32). -/

/-- Table entry of `kAtan2LUT` (`generate_atan2_lut.py` lines 11-25):
`int(atan(i/255) * 2^32)`.  The script computes the value at 50 decimal
digits and converts it through a double-precision `float()` before scaling;
the reference value is idealized as the exact real here (no claim under study
depends on the entry values, see `oracleDps` / `usesFloatBridge` for the
precision bookkeeping itself). -/
noncomputable def kAtan2LUT (i : ℤ) : ℤ :=
  pythonInt (Real.arctan ((i : ℝ) / 255) * 2 ^ 32)

/-- The `kIndexScale` constant of the emitted `LookupAtan2Table`
(`generate_atan2_lut.py` line 77): `(1 << 32) / (256 - 1)` (C++ integer
division). -/
def kIndexScale : ℤ := Int.tdiv (2 ^ 32) 255

/-- Input scaling and range clamp of the emitted `LookupAtan2Table`
(`generate_atan2_lut.py` lines 58-73): shift into Q31.32 and clamp values
`≥ 1.0` down to `kOne - 1`.  There is no guard against negative input. -/
def atan2ScaledX (ra : ℤ) (P : ℕ) : ℤ :=
  let s := if 32 < P then ra / 2 ^ (P - 32) else if P < 32 then ra * 2 ^ (32 - P) else ra
  if 2 ^ 32 ≤ s then 2 ^ 32 - 1 else s

/-- Clamped table index of the emitted `LookupAtan2Table`
(`generate_atan2_lut.py` lines 75-85): `index = scaled_x / kIndexScale`
(C++ truncating division), clamped to `kTableSize - 2 = 254` from above. -/
def atan2Index (ra : ℤ) (P : ℕ) : ℤ :=
  let i := Int.tdiv (atan2ScaledX ra P) kIndexScale
  if (255 : ℤ) ≤ i then 254 else i

/-- Fractional part of the emitted `LookupAtan2Table` (set to `kIndexScale`
when the index clamp fires). -/
def atan2Frac (ra : ℤ) (P : ℕ) : ℤ :=
  if (255 : ℤ) ≤ Int.tdiv (atan2ScaledX ra P) kIndexScale then kIndexScale
  else Int.tmod (atan2ScaledX ra P) kIndexScale

/-- Emitted `LookupAtan2Table` (`generate_atan2_lut.py` lines 51-100). -/
noncomputable def LookupAtan2Table (ra : ℤ) (P : ℕ) : ℤ :=
  let i := atan2Index ra P
  let y0 := kAtan2LUT i
  let y1 := kAtan2LUT (i + 1)
  let res := y0 + Int.tdiv ((y1 - y0) * atan2Frac ra P) kIndexScale
  if 32 < P then res * 2 ^ (P - 32) else if P < 32 then res / 2 ^ (32 - P) else res

/-! Table of `generate_tan_lut.py` (512 entries; `ib` = `int_bits`
(default 23), `K` = `fraction_bits` (default 40)). -/

/-- The `max_value` cap of `generate_tan_lut.py` (line 43):
`(2^int_bits - 1) + (2^fraction_bits - 1)/2^fraction_bits`, the largest value
representable in the target Q format. -/
noncomputable def tanMaxValue (ib K : ℕ) : ℝ :=
  ((2 : ℝ) ^ ib - 1) + ((2 : ℝ) ^ K - 1) / 2 ^ K

/-- Table-entry construction of `generate_tan_lut.py` (lines 45-54) as a
function of the sample angle: the tan value is capped at `max_value` before
truncation (`if tan_x > max_value: tan_x = max_value`).  The script evaluates
the sample angles in 100-digit arithmetic; its last sample lies within
`10^-99` of π/2, where tan is astronomically large, so the cap fires there. -/
noncomputable def tanEntryAt (ib K : ℕ) (t : ℝ) : ℤ :=
  pythonInt (min (Real.tan t) (tanMaxValue ib K) * 2 ^ K)

/-- Table entry of `kTanLut` at the ideal sample angle `i·(π/2)/511`
(`generate_tan_lut.py` lines 37-54).  At `i = 511` the ideal angle is exactly
π/2, a pole of tan; the program's 100-digit approximation of that sample sees
a huge finite value there (beyond the cap), so the capped entries are settled
through `tanEntryAt` at explicit near-π/2 angles. -/
noncomputable def kTanLut (ib K : ℕ) (i : ℤ) : ℤ :=
  tanEntryAt ib K ((i : ℝ) * (Real.pi / 2 / 511))

/-! Oracle-precision bookkeeping of the eight generator scripts (for the
working-precision claims): the `mp.dps` setting of each script, and whether
the script routes reference values through a double-precision `float()`
before scaling them into the table. -/

/-- The eight generator scripts of the repository. -/
inductive GenScript
  | acos
  | atan
  | atan2
  | sin
  | tan
  | log2
  | constants
  | cordic
deriving DecidableEq

/-- Working precision (`mp.dps`, significant decimal digits) set by each
generator script: 100 everywhere (`mp.mp.dps = 100`) except
`generate_atan2_lut.py` line 6, which sets `mp.dps = 50`. -/
def oracleDps : GenScript → ℕ
  | .atan2 => 50
  | _ => 100

/-- Whether the generator converts reference values to double-precision
`float` before scaling into the table: only `generate_atan2_lut.py` does
(`atan_x = float(mp.atan(mpf(x)))`, line 17); every other script keeps the
`mpf` value until `int(value * scale)`. -/
def usesFloatBridge : GenScript → Bool
  | .atan2 => true
  | _ => false

end Fixed64

namespace Fixed64

/-! Basic facts about the primitive operations. -/

theorem pythonInt_of_nonneg {r : ℝ} (h : 0 ≤ r) : pythonInt r = ⌊r⌋ := by
  unfold pythonInt
  exact if_pos h

theorem pythonInt_intCast (m : ℤ) : pythonInt (m : ℝ) = m := by
  unfold pythonInt
  split
  · exact Int.floor_intCast m
  · rw [← Int.cast_neg, Int.floor_intCast, neg_neg]

theorem pythonInt_nonneg {r : ℝ} (h : 0 ≤ r) : 0 ≤ pythonInt r := by
  rw [pythonInt_of_nonneg h]
  exact Int.floor_nonneg.mpr h

theorem pythonInt_cast_le {r : ℝ} (h : 0 ≤ r) : (pythonInt r : ℝ) ≤ r := by
  rw [pythonInt_of_nonneg h]
  exact Int.floor_le r

theorem lt_pythonInt_cast {r : ℝ} (h : 0 ≤ r) : r - 1 < (pythonInt r : ℝ) := by
  rw [pythonInt_of_nonneg h]
  linarith [Int.lt_floor_add_one r]

theorem pythonInt_mono : Monotone pythonInt := by
  intro r s h
  unfold pythonInt
  split <;> split
  · exact Int.floor_mono h
  · linarith
  · have h1 : ⌊-r⌋ ≥ 0 := Int.floor_nonneg.mpr (by linarith)
    have h2 : (0 : ℤ) ≤ ⌊s⌋ := Int.floor_nonneg.mpr (by assumption)
    omega
  · have := Int.floor_mono (neg_le_neg h)
    omega

theorem convertFp_zero (f g : ℕ) : convertFp 0 f g = 0 := by
  unfold convertFp
  split
  · exact zero_mul _
  · exact Int.zero_ediv _

theorem convertFp_mono {v w : ℤ} (f g : ℕ) (h : v ≤ w) :
    convertFp v f g ≤ convertFp w f g := by
  unfold convertFp
  split
  · exact mul_le_mul_of_nonneg_right h (by positivity)
  · exact Int.ediv_le_ediv (by positivity) h

theorem convertFp_nonneg {v : ℤ} (f g : ℕ) (h : 0 ≤ v) : 0 ≤ convertFp v f g := by
  have := convertFp_mono f g h
  rwa [convertFp_zero] at this

theorem convertFp_nonpos {v : ℤ} (f g : ℕ) (h : v ≤ 0) : convertFp v f g ≤ 0 := by
  have := convertFp_mono f g h
  rwa [convertFp_zero] at this

theorem fixed64Mul_exact (c m : ℤ) (K : ℕ) : fixed64Mul c (m * 2 ^ K) K = c * m := by
  unfold fixed64Mul
  have h2 : (0 : ℤ) < 2 ^ K := by positivity
  have e : c * (m * 2 ^ K) + 2 ^ K / 2 = 2 ^ K / 2 + c * m * 2 ^ K := by ring
  rw [e, Int.add_mul_ediv_right _ _ (by positivity), Int.ediv_eq_zero_of_lt (by omega) (by omega),
    zero_add]

theorem fixed64Mul_nonneg {a b : ℤ} (K : ℕ) (ha : 0 ≤ a) (hb : 0 ≤ b) :
    0 ≤ fixed64Mul a b K := by
  unfold fixed64Mul
  have h2 : (0 : ℤ) < 2 ^ K := by positivity
  have hq : (0 : ℤ) ≤ 2 ^ K / 2 := Int.ediv_nonneg (le_of_lt h2) (by norm_num)
  exact Int.ediv_nonneg (add_nonneg (mul_nonneg ha hb) hq) (le_of_lt h2)

theorem fixed64Mul_mono_right {a b c : ℤ} (K : ℕ) (ha : 0 ≤ a) (h : b ≤ c) :
    fixed64Mul a b K ≤ fixed64Mul a c K := by
  unfold fixed64Mul
  have h2 : (0 : ℤ) < 2 ^ K := by positivity
  exact Int.ediv_le_ediv h2 (by nlinarith)

theorem fixed64Mul_le_self {d t : ℤ} (K : ℕ) (hd : 0 ≤ d) (ht : 0 ≤ t)
    (ht2 : t < 2 ^ K) : fixed64Mul d t K ≤ d := by
  unfold fixed64Mul
  have h2 : (0 : ℤ) < 2 ^ K := by positivity
  have hh : (2 : ℤ) ^ K / 2 ≤ 2 ^ K - 1 := by omega
  have hdt : d * t ≤ d * (2 ^ K - 1) := mul_le_mul_of_nonneg_left (by omega) hd
  have hnum : d * t + 2 ^ K / 2 ≤ d * 2 ^ K + (2 ^ K - 1) := by nlinarith
  calc (d * t + 2 ^ K / 2) / 2 ^ K ≤ (2 ^ K - 1 + d * 2 ^ K) / 2 ^ K :=
        Int.ediv_le_ediv h2 (by omega)
    _ = d := by
        rw [Int.add_mul_ediv_right _ _ (by positivity),
          Int.ediv_eq_zero_of_lt (by omega) (by omega), zero_add]

/-- Claim C7: converting a value up to a larger fraction-bit count and back
restores it exactly, and the down-up round trip for a smaller target count is
idempotent. -/
theorem c7_conversion_roundtrip (v : ℤ) (f1 f2 : ℕ) :
    (f1 ≤ f2 → convertFp (convertFp v f1 f2) f2 f1 = v) ∧
    (f2 < f1 →
      convertFp (convertFp (convertFp (convertFp v f1 f2) f2 f1) f1 f2) f2 f1 =
        convertFp (convertFp v f1 f2) f2 f1) := by
  constructor
  · intro h
    rcases eq_or_lt_of_le h with heq | hlt
    · subst heq
      simp [convertFp]
    · simp only [convertFp, if_pos hlt, if_neg (not_lt.mpr (le_of_lt hlt))]
      exact Int.mul_ediv_cancel _ (by positivity)
  · intro h
    have hnl : ¬ f1 < f2 := by omega
    simp only [convertFp, if_neg hnl, if_pos h]
    rw [Int.mul_ediv_cancel _ (show ((2 : ℤ) ^ (f1 - f2)) ≠ 0 by positivity)]

/-- Witness for C7 at `v = 5, f1 = 3, f2 = 7` (lossless up-down round trip)
and `v = 9, f1 = 7, f2 = 3` (idempotent down-conversion). -/
theorem c7_conversion_roundtrip_witness :
    convertFp (convertFp 5 3 7) 7 3 = 5 ∧
    convertFp (convertFp (convertFp (convertFp 9 7 3) 3 7) 7 3) 3 7 =
      convertFp (convertFp 9 7 3) 3 7 := by
  exact ⟨(c7_conversion_roundtrip 5 3 7).1 (by decide),
    (c7_conversion_roundtrip 9 7 3).2 (by decide)⟩

/-- Claim C4 (counterexample): it is not the case that every generator's
oracle runs at 100 or more decimal digits without routing reference values
through double-precision floats: the atan2 generator sets `mp.dps = 50` and
applies `float()` to each atan value. -/
theorem c4_counterexample :
    ¬ (∀ g : GenScript, 100 ≤ oracleDps g ∧ usesFloatBridge g = false) := by
  intro h
  exact absurd (h .atan2).1 (by decide)

/-- Claim C4 (amended): every generator except the atan2 generator computes
its reference values at 100 decimal digits and never routes them through a
double-precision float; the atan2 generator runs at 50 digits and converts
each reference value to a double before scaling. -/
theorem c4_oracle_precision (g : GenScript) :
    (g ≠ .atan2 → 100 ≤ oracleDps g ∧ usesFloatBridge g = false) ∧
    (g = .atan2 → oracleDps g = 50 ∧ usesFloatBridge g = true) := by
  cases g <;> exact ⟨fun h => by first | exact absurd rfl h | exact ⟨by decide, by decide⟩,
    fun h => by first | exact absurd h (by decide) | exact ⟨by decide, by decide⟩⟩

/-- Witness for C4 at the acos and atan2 generators. -/
theorem c4_oracle_precision_witness :
    (100 ≤ oracleDps .acos ∧ usesFloatBridge .acos = false) ∧
    (oracleDps .atan2 = 50 ∧ usesFloatBridge .atan2 = true) :=
  ⟨(c4_oracle_precision .acos).1 (by decide), (c4_oracle_precision .atan2).2 rfl⟩

/-! Facts about the atan table and the emitted atan evaluators. -/

theorem arctan_nonneg_of_nonneg {z : ℝ} (h : 0 ≤ z) : 0 ≤ Real.arctan z := by
  have := Real.arctan_strictMono.monotone h
  rwa [Real.arctan_zero] at this

theorem arctan_le_self_of_nonneg {z : ℝ} (h : 0 ≤ z) : Real.arctan z ≤ z := by
  have h1 : 0 ≤ Real.arctan z := arctan_nonneg_of_nonneg h
  have h2 := Real.le_tan h1 (Real.arctan_lt_pi_div_two z)
  rwa [Real.tan_arctan] at h2

theorem kAtanLut_mono (n K : ℕ) (hn : 2 ≤ n) {i j : ℤ} (h : i ≤ j) :
    kAtanLut n K i ≤ kAtanLut n K j := by
  unfold kAtanLut
  have hd : (0 : ℝ) < (n : ℝ) - 1 := by
    have : (2 : ℝ) ≤ (n : ℝ) := by exact_mod_cast hn
    linarith
  apply pythonInt_mono
  apply mul_le_mul_of_nonneg_right _ (by positivity)
  apply Real.arctan_strictMono.monotone
  have hij : (i : ℝ) ≤ (j : ℝ) := by exact_mod_cast h
  exact div_le_div_of_nonneg_right hij hd.le

theorem kAtanLut_nonneg (n K : ℕ) (hn : 2 ≤ n) {i : ℤ} (h : 0 ≤ i) :
    0 ≤ kAtanLut n K i := by
  unfold kAtanLut
  have hd : (0 : ℝ) < (n : ℝ) - 1 := by
    have : (2 : ℝ) ≤ (n : ℝ) := by exact_mod_cast hn
    linarith
  apply pythonInt_nonneg
  have hi : (0 : ℝ) ≤ (i : ℝ) := by exact_mod_cast h
  have := arctan_nonneg_of_nonneg (z := (i : ℝ) / ((n : ℝ) - 1)) (by positivity)
  positivity

theorem atanFastEval_nonneg (n K F : ℕ) (hn : 2 ≤ n) (c : ℤ) :
    0 ≤ atanFastEval n K c F := by
  simp only [atanFastEval, fixed64Mul_exact]
  have hn1 : (0 : ℤ) ≤ (n : ℤ) - 1 := by omega
  have hP : (0 : ℤ) < 2 ^ K := by positivity
  split_ifs with h1 h2 h3
  · exact le_refl 0
  · exact convertFp_nonneg _ _ (kAtanLut_nonneg n K hn hn1)
  · exact convertFp_nonneg _ _ (kAtanLut_nonneg n K hn hn1)
  · push_neg at h1
    have hidx : (0 : ℤ) ≤ c * ((n : ℤ) - 1) / 2 ^ K :=
      Int.ediv_nonneg (by nlinarith) (le_of_lt hP)
    have ht : (0 : ℤ) ≤ c * ((n : ℤ) - 1) % 2 ^ K := Int.emod_nonneg _ (by positivity)
    have hy : kAtanLut n K (c * ((n : ℤ) - 1) / 2 ^ K) ≤
        kAtanLut n K (c * ((n : ℤ) - 1) / 2 ^ K + 1) := kAtanLut_mono n K hn (by omega)
    have hm := fixed64Mul_nonneg (a := kAtanLut n K (c * ((n : ℤ) - 1) / 2 ^ K + 1) -
      kAtanLut n K (c * ((n : ℤ) - 1) / 2 ^ K)) (K := K) (by omega) ht
    have hl := kAtanLut_nonneg n K hn hidx
    exact convertFp_nonneg _ _ (by omega)

theorem atanFastEval_le_top (n K F : ℕ) (hn : 2 ≤ n) (c : ℤ) :
    atanFastEval n K c F ≤ convertFp (kAtanLut n K ((n : ℤ) - 1)) K F := by
  simp only [atanFastEval, fixed64Mul_exact]
  have hn1 : (0 : ℤ) ≤ (n : ℤ) - 1 := by omega
  have hP : (0 : ℤ) < 2 ^ K := by positivity
  split_ifs with h1 h2 h3
  · exact convertFp_nonneg _ _ (kAtanLut_nonneg n K hn hn1)
  · exact le_refl _
  · exact le_refl _
  · push_neg at h1 h3
    have ht0 : (0 : ℤ) ≤ c * ((n : ℤ) - 1) % 2 ^ K := Int.emod_nonneg _ (by positivity)
    have ht1 : c * ((n : ℤ) - 1) % 2 ^ K < 2 ^ K := Int.emod_lt_of_pos _ hP
    have hy : kAtanLut n K (c * ((n : ℤ) - 1) / 2 ^ K) ≤
        kAtanLut n K (c * ((n : ℤ) - 1) / 2 ^ K + 1) := kAtanLut_mono n K hn (by omega)
    have hms := fixed64Mul_le_self (K := K) (d := kAtanLut n K (c * ((n : ℤ) - 1) / 2 ^ K + 1) -
      kAtanLut n K (c * ((n : ℤ) - 1) / 2 ^ K)) (by omega) ht0 ht1
    have htop : kAtanLut n K (c * ((n : ℤ) - 1) / 2 ^ K + 1) ≤ kAtanLut n K ((n : ℤ) - 1) :=
      kAtanLut_mono n K hn (by omega)
    exact convertFp_mono _ _ (by omega)

theorem atanFastEval_mono (n K F : ℕ) (hn : 2 ≤ n) {c d : ℤ} (hcd : c ≤ d) :
    atanFastEval n K c F ≤ atanFastEval n K d F := by
  by_cases hc0 : c ≤ 0
  · have h := atanFastEval_nonneg n K F hn d
    have hz : atanFastEval n K c F = 0 := by
      simp only [atanFastEval, if_pos hc0]
    omega
  · push_neg at hc0
    have hd0 : ¬ d ≤ 0 := by omega
    by_cases hctop : 2 ^ K ≤ c
    · have hdtop : 2 ^ K ≤ d := le_trans hctop hcd
      simp only [atanFastEval, if_neg (show ¬ c ≤ 0 by omega), if_pos hctop,
        if_neg hd0, if_pos hdtop]
      exact le_refl _
    · by_cases hdtop : 2 ^ K ≤ d
      · have h := atanFastEval_le_top n K F hn c
        have hz : atanFastEval n K d F = convertFp (kAtanLut n K ((n : ℤ) - 1)) K F := by
          simp only [atanFastEval, if_neg hd0, if_pos hdtop]
        omega
      · -- both in the interpolation range
        have hP : (0 : ℤ) < 2 ^ K := by positivity
        have hn1 : (0 : ℤ) < (n : ℤ) - 1 := by omega
        have hic : c * ((n : ℤ) - 1) / 2 ^ K < (n : ℤ) - 1 := by
          rw [Int.ediv_lt_iff_lt_mul hP]
          have : c * ((n : ℤ) - 1) < 2 ^ K * ((n : ℤ) - 1) := by
            apply mul_lt_mul_of_pos_right _ hn1
            omega
          linarith
        have hid : d * ((n : ℤ) - 1) / 2 ^ K < (n : ℤ) - 1 := by
          rw [Int.ediv_lt_iff_lt_mul hP]
          have : d * ((n : ℤ) - 1) < 2 ^ K * ((n : ℤ) - 1) := by
            apply mul_lt_mul_of_pos_right _ hn1
            omega
          linarith
        simp only [atanFastEval, fixed64Mul_exact, if_neg (show ¬ c ≤ 0 by omega),
          if_neg hctop, if_neg hd0, if_neg hdtop, if_neg (show ¬ (n : ℤ) - 1 ≤
            c * ((n : ℤ) - 1) / 2 ^ K by omega), if_neg (show ¬ (n : ℤ) - 1 ≤
            d * ((n : ℤ) - 1) / 2 ^ K by omega)]
        apply convertFp_mono
        have hle : c * ((n : ℤ) - 1) / 2 ^ K ≤ d * ((n : ℤ) - 1) / 2 ^ K :=
          Int.ediv_le_ediv hP (by nlinarith)
        have hic0 : 0 ≤ c * ((n : ℤ) - 1) / 2 ^ K := Int.ediv_nonneg (by nlinarith) hP.le
        have htc0 : 0 ≤ c * ((n : ℤ) - 1) % 2 ^ K := Int.emod_nonneg _ (by positivity)
        have htc1 : c * ((n : ℤ) - 1) % 2 ^ K < 2 ^ K := Int.emod_lt_of_pos _ hP
        have htd0 : 0 ≤ d * ((n : ℤ) - 1) % 2 ^ K := Int.emod_nonneg _ (by positivity)
        have hyc : kAtanLut n K (c * ((n : ℤ) - 1) / 2 ^ K) ≤
            kAtanLut n K (c * ((n : ℤ) - 1) / 2 ^ K + 1) := kAtanLut_mono n K hn (by omega)
        have hyd : kAtanLut n K (d * ((n : ℤ) - 1) / 2 ^ K) ≤
            kAtanLut n K (d * ((n : ℤ) - 1) / 2 ^ K + 1) := kAtanLut_mono n K hn (by omega)
        rcases eq_or_lt_of_le hle with heq | hlt
        · -- same bracket: the fractional parts are ordered
          have htle : c * ((n : ℤ) - 1) % 2 ^ K ≤ d * ((n : ℤ) - 1) % 2 ^ K := by
            have hmc := Int.emod_def (c * ((n : ℤ) - 1)) (2 ^ K)
            have hmd := Int.emod_def (d * ((n : ℤ) - 1)) (2 ^ K)
            have hcd2 : c * ((n : ℤ) - 1) ≤ d * ((n : ℤ) - 1) := by nlinarith
            rw [hmc, hmd, ← heq]
            omega
          rw [← heq]
          have hmm := fixed64Mul_mono_right (K := K)
            (a := kAtanLut n K (c * ((n : ℤ) - 1) / 2 ^ K + 1) -
              kAtanLut n K (c * ((n : ℤ) - 1) / 2 ^ K)) (by omega) htle
          omega
        · -- the bracket advanced: chain through the shared table entry
          have h1 : fixed64Mul (kAtanLut n K (c * ((n : ℤ) - 1) / 2 ^ K + 1) -
              kAtanLut n K (c * ((n : ℤ) - 1) / 2 ^ K)) (c * ((n : ℤ) - 1) % 2 ^ K) K ≤
              kAtanLut n K (c * ((n : ℤ) - 1) / 2 ^ K + 1) -
              kAtanLut n K (c * ((n : ℤ) - 1) / 2 ^ K) :=
            fixed64Mul_le_self (K := K) (by omega) htc0 htc1
          have h2 : kAtanLut n K (c * ((n : ℤ) - 1) / 2 ^ K + 1) ≤
              kAtanLut n K (d * ((n : ℤ) - 1) / 2 ^ K) := kAtanLut_mono n K hn (by omega)
          have h3 : 0 ≤ fixed64Mul (kAtanLut n K (d * ((n : ℤ) - 1) / 2 ^ K + 1) -
              kAtanLut n K (d * ((n : ℤ) - 1) / 2 ^ K)) (d * ((n : ℤ) - 1) % 2 ^ K) K :=
            fixed64Mul_nonneg (K := K) (by omega) htd0
          omega

/-- Claim C5: the generated `LookupAtanFast` is non-decreasing in its input,
for every entry count, every internal fraction-bit count and every input
fraction-bit count, across the whole input range including the clamped
regions and the sign reduction. -/
theorem c5_lookup_atan_fast_monotone (n K F : ℕ) (x y : ℤ) (hn : 2 ≤ n)
    (hxy : x ≤ y) : LookupAtanFast n K x F ≤ LookupAtanFast n K y F := by
  have hposmono : ∀ a b : ℤ, a ≤ b →
      lookupAtanFastPos n K a F ≤ lookupAtanFastPos n K b F := by
    intro a b hab
    unfold lookupAtanFastPos
    exact atanFastEval_mono n K F hn (convertFp_mono F K hab)
  have hposnn : ∀ a : ℤ, 0 ≤ lookupAtanFastPos n K a F := by
    intro a
    unfold lookupAtanFastPos
    exact atanFastEval_nonneg n K F hn _
  unfold LookupAtanFast
  split_ifs with h1 h2 h2
  · exact neg_le_neg (hposmono _ _ (by omega))
  · exact le_trans (neg_nonpos_of_nonneg (hposnn _)) (hposnn _)
  · omega
  · exact hposmono _ _ hxy

/-- Witness for C5 at `n = 512, K = 32, F = 16, x = -3, y = 7`. -/
theorem c5_lookup_atan_fast_monotone_witness :
    LookupAtanFast 512 32 (-3) 16 ≤ LookupAtanFast 512 32 7 16 :=
  c5_lookup_atan_fast_monotone 512 32 16 (-3) 7 (by decide) (by decide)

theorem convertFp_self (v : ℤ) (f : ℕ) : convertFp v f f = v := by
  simp [convertFp]

theorem lookupAtanPos_zero (n K F : ℕ) : lookupAtanPos n K 0 F = 0 := by
  unfold lookupAtanPos
  rw [convertFp_zero]
  simp only [atanHermiteEval, if_pos (le_refl (0 : ℤ))]

theorem lookupAtanFastPos_zero (n K F : ℕ) : lookupAtanFastPos n K 0 F = 0 := by
  unfold lookupAtanFastPos
  rw [convertFp_zero]
  simp only [atanFastEval, if_pos (le_refl (0 : ℤ))]

/-- Claim C6: both generated atan evaluators are exactly odd, bit for bit:
negating the input negates the output, for every entry count, internal
format, input value and input fraction-bit count. -/
theorem c6_atan_evaluators_odd (n K F : ℕ) (x : ℤ) :
    LookupAtan n K (-x) F = -LookupAtan n K x F ∧
    LookupAtanFast n K (-x) F = -LookupAtanFast n K x F := by
  constructor
  · unfold LookupAtan
    rcases lt_trichotomy x 0 with h | h | h
    · rw [if_neg (by omega), if_pos h, neg_neg]
    · subst h
      simp [lookupAtanPos_zero]
    · rw [if_pos (by omega), if_neg (by omega), neg_neg]
  · unfold LookupAtanFast
    rcases lt_trichotomy x 0 with h | h | h
    · rw [if_neg (by omega), if_pos h, neg_neg]
    · subst h
      simp [lookupAtanFastPos_zero]
    · rw [if_pos (by omega), if_neg (by omega), neg_neg]

/-- Shared helper: whenever the converted input reaches `kOne = 2^K`, both
emitted atan evaluators take the clamp branch and return the last table
entry `kAtanLut[n-1]`, converted back to the caller format. -/
theorem atan_clamp_eval (n K F : ℕ) (x : ℤ) (hx : 0 ≤ x)
    (hc : 2 ^ K ≤ convertFp x F K) :
    LookupAtan n K x F = convertFp (kAtanLut n K ((n : ℤ) - 1)) K F ∧
    LookupAtanFast n K x F = convertFp (kAtanLut n K ((n : ℤ) - 1)) K F := by
  have hP : (0 : ℤ) < 2 ^ K := by positivity
  have h0 : ¬ x < 0 := by omega
  have hcpos : ¬ convertFp x F K ≤ 0 := by omega
  constructor
  · unfold LookupAtan lookupAtanPos
    rw [if_neg h0]
    simp only [atanHermiteEval, if_neg hcpos, if_pos hc]
  · unfold LookupAtanFast lookupAtanFastPos
    rw [if_neg h0]
    simp only [atanFastEval, if_neg hcpos, if_pos hc]

/-- Claim C1 (counterexample): at the default parameters (512 entries,
32 fraction bits) and input `x = 2.0` in Q31.32, the generated evaluators do
NOT return the reciprocal-reduced value `π/2 - atan(1/2) = atan(2)`; they
return the same clamped value as `x = 1.0`, which is short of `atan(2)·2^32`
by more than `0.25·2^32` — far beyond the claimed `~1e-9` bound. -/
theorem c1_counterexample :
    LookupAtan 512 32 (2 * 2 ^ 32) 32 = LookupAtan 512 32 (2 ^ 32) 32 ∧
    (LookupAtan 512 32 (2 * 2 ^ 32) 32 : ℝ) < (Real.arctan 2 - 1 / 4) * 2 ^ 32 ∧
    (LookupAtanFast 512 32 (2 * 2 ^ 32) 32 : ℝ) < (Real.arctan 2 - 1 / 4) * 2 ^ 32 := by
  have h2 := atan_clamp_eval 512 32 32 (2 * 2 ^ 32) (by decide) (by decide)
  have h1 := atan_clamp_eval 512 32 32 (2 ^ 32) (by decide) (by decide)
  have hlut : kAtanLut 512 32 (((512 : ℕ) : ℤ) - 1) = pythonInt (Real.pi / 4 * 2 ^ 32) := by
    unfold kAtanLut
    have harg : (((((512 : ℕ) : ℤ) - 1) : ℤ) : ℝ) / (((512 : ℕ) : ℝ) - 1) = 1 := by
      push_cast
      norm_num
    rw [harg, Real.arctan_one]
  have hcv : convertFp (kAtanLut 512 32 (((512 : ℕ) : ℤ) - 1)) 32 32 =
      kAtanLut 512 32 (((512 : ℕ) : ℤ) - 1) := convertFp_self _ 32
  have hbound : (pythonInt (Real.pi / 4 * 2 ^ 32) : ℝ) < (Real.arctan 2 - 1 / 4) * 2 ^ 32 := by
    have hle : (pythonInt (Real.pi / 4 * 2 ^ 32) : ℝ) ≤ Real.pi / 4 * 2 ^ 32 :=
      pythonInt_cast_le (by positivity)
    have hinv := Real.arctan_inv_of_pos (show (0 : ℝ) < 2 by norm_num)
    have h12 : Real.arctan 2⁻¹ ≤ 2⁻¹ := arctan_le_self_of_nonneg (by norm_num)
    have hgt : Real.pi / 4 < Real.arctan 2 - 1 / 4 := by
      have hpi := Real.pi_gt_three
      have : Real.pi / 2 - 2⁻¹ ≤ Real.arctan 2 := by linarith
      linarith
    have := mul_lt_mul_of_pos_right hgt (show (0 : ℝ) < 2 ^ 32 by positivity)
    linarith
  refine ⟨by rw [h2.1, h1.1], ?_, ?_⟩
  · rw [h2.1, hcv, hlut]
    exact hbound
  · rw [h2.2, hcv, hlut]
    exact hbound

/-- Claim C1 (amended): for every input whose converted value reaches 1.0 in
the internal format, the generated `LookupAtan` and `LookupAtanFast` return
the clamped last table entry `atan(1) = π/4` (converted to the caller
format); the reciprocal reduction `atan(x) = π/2 - atan(1/x)` is not
performed inside the generated evaluators. -/
theorem c1_atan_clamps_above_one (n K F : ℕ) (x : ℤ) (hx : 0 ≤ x)
    (hc : 2 ^ K ≤ convertFp x F K) :
    LookupAtan n K x F = convertFp (kAtanLut n K ((n : ℤ) - 1)) K F ∧
    LookupAtanFast n K x F = convertFp (kAtanLut n K ((n : ℤ) - 1)) K F :=
  atan_clamp_eval n K F x hx hc

/-- Witness for the amended C1 at `n = 512, K = F = 32, x = 2^33` (2.0 in
Q31.32). -/
theorem c1_atan_clamps_above_one_witness :
    LookupAtan 512 32 (2 ^ 33) 32 = convertFp (kAtanLut 512 32 (((512 : ℕ) : ℤ) - 1)) 32 32 ∧
    LookupAtanFast 512 32 (2 ^ 33) 32 =
      convertFp (kAtanLut 512 32 (((512 : ℕ) : ℤ) - 1)) 32 32 :=
  c1_atan_clamps_above_one 512 32 32 (2 ^ 33) (by decide) (by decide)

/-! Numeric certification of the first two acos table entries at the default
parameters (512 Chebyshev nodes, 40 fraction bits).  The two smallest nodes
are `sin(π/2048)^2` and `sin(3π/2048)^2`; we certify their scaled truncations
and the corresponding `kAcosLut` samples with rational bounds derived from
the 20-digit π bounds and quartic Taylor bounds on sin. -/

theorem one_sub_cos_eq_two_sin_sq_half (t : ℝ) :
    1 - Real.cos t = 2 * Real.sin (t / 2) ^ 2 := by
  have h := Real.cos_two_mul' (t / 2)
  rw [show 2 * (t / 2) = t by ring] at h
  rw [h, Real.cos_sq']
  ring

theorem acosNode512_zero : acosNode 512 0 = Real.sin (Real.pi / 2048) ^ 2 := by
  unfold acosNode
  have harg : Real.pi * (2 * (((512 : ℕ) : ℝ) - 1 - ((0 : ℤ) : ℝ)) + 1) / (2 * ((512 : ℕ) : ℝ))
      = Real.pi - Real.pi / 1024 := by
    push_cast
    ring
  rw [harg, Real.cos_pi_sub]
  have h2 := one_sub_cos_eq_two_sin_sq_half (Real.pi / 1024)
  rw [show Real.pi / 1024 / 2 = Real.pi / 2048 by ring] at h2
  linarith

theorem acosNode512_one : acosNode 512 1 = Real.sin (3 * (Real.pi / 2048)) ^ 2 := by
  unfold acosNode
  have harg : Real.pi * (2 * (((512 : ℕ) : ℝ) - 1 - ((1 : ℤ) : ℝ)) + 1) / (2 * ((512 : ℕ) : ℝ))
      = Real.pi - 3 * Real.pi / 1024 := by
    push_cast
    ring
  rw [harg, Real.cos_pi_sub]
  have h2 := one_sub_cos_eq_two_sin_sq_half (3 * Real.pi / 1024)
  rw [show 3 * Real.pi / 1024 / 2 = 3 * (Real.pi / 2048) by ring] at h2
  linarith

theorem sin_pi2048_bounds :
    (15339801859963059892388 : ℝ) / 10 ^ 25 ≤ Real.sin (Real.pi / 2048) ∧
    Real.sin (Real.pi / 2048) ≤ (15339801865730836728372 : ℝ) / 10 ^ 25 := by
  have hpl := Real.pi_gt_d20
  have hpu := Real.pi_lt_d20
  have hyl : (314159265358979323846 : ℝ) / 10 ^ 20 / 2048 < Real.pi / 2048 := by linarith
  have hyu : Real.pi / 2048 < (314159265358979323847 : ℝ) / 10 ^ 20 / 2048 := by linarith
  have hy0 : (0 : ℝ) < Real.pi / 2048 := by positivity
  have hy1 : Real.pi / 2048 ≤ 1 := by nlinarith
  have hb := Real.sin_bound (x := Real.pi / 2048) (by rw [abs_of_pos hy0]; exact hy1)
  rw [abs_of_pos hy0, abs_le] at hb
  obtain ⟨hb1, hb2⟩ := hb
  have h3u : (Real.pi / 2048) ^ 3 ≤ ((314159265358979323847 : ℝ) / 10 ^ 20 / 2048) ^ 3 :=
    pow_le_pow_left₀ hy0.le hyu.le 3
  have h3l : ((314159265358979323846 : ℝ) / 10 ^ 20 / 2048) ^ 3 ≤ (Real.pi / 2048) ^ 3 :=
    pow_le_pow_left₀ (by norm_num) hyl.le 3
  have h4u : (Real.pi / 2048) ^ 4 ≤ ((314159265358979323847 : ℝ) / 10 ^ 20 / 2048) ^ 4 :=
    pow_le_pow_left₀ hy0.le hyu.le 4
  constructor
  · have hrat : (15339801859963059892388 : ℝ) / 10 ^ 25 ≤
        (314159265358979323846 : ℝ) / 10 ^ 20 / 2048 -
        ((314159265358979323847 : ℝ) / 10 ^ 20 / 2048) ^ 3 / 6 -
        ((314159265358979323847 : ℝ) / 10 ^ 20 / 2048) ^ 4 * (5 / 96) := by
      norm_num
    linarith
  · have hrat : (314159265358979323847 : ℝ) / 10 ^ 20 / 2048 -
        ((314159265358979323846 : ℝ) / 10 ^ 20 / 2048) ^ 3 / 6 +
        ((314159265358979323847 : ℝ) / 10 ^ 20 / 2048) ^ 4 * (5 / 96) ≤
        (15339801865730836728372 : ℝ) / 10 ^ 25 := by
      norm_num
    linarith

theorem sin_3pi2048_bounds :
    (46019261195831837544288 : ℝ) / 10 ^ 25 ≤ Real.sin (3 * (Real.pi / 2048)) ∧
    Real.sin (3 * (Real.pi / 2048)) ≤ (46019261213135330917778 : ℝ) / 10 ^ 25 := by
  obtain ⟨hsl, hsu⟩ := sin_pi2048_bounds
  have hs0 : (0 : ℝ) ≤ Real.sin (Real.pi / 2048) := le_trans (by norm_num) hsl
  have h3 := Real.sin_three_mul (Real.pi / 2048)
  have h3u : Real.sin (Real.pi / 2048) ^ 3 ≤ ((15339801865730836728372 : ℝ) / 10 ^ 25) ^ 3 :=
    pow_le_pow_left₀ hs0 hsu 3
  have h3l : ((15339801859963059892388 : ℝ) / 10 ^ 25) ^ 3 ≤ Real.sin (Real.pi / 2048) ^ 3 :=
    pow_le_pow_left₀ (by norm_num) hsl 3
  constructor
  · have hrat : (46019261195831837544288 : ℝ) / 10 ^ 25 ≤
        3 * ((15339801859963059892388 : ℝ) / 10 ^ 25) -
        4 * ((15339801865730836728372 : ℝ) / 10 ^ 25) ^ 3 := by
      norm_num
    linarith
  · have hrat : 3 * ((15339801865730836728372 : ℝ) / 10 ^ 25) -
        4 * ((15339801859963059892388 : ℝ) / 10 ^ 25) ^ 3 ≤
        (46019261213135330917778 : ℝ) / 10 ^ 25 := by
      norm_num
    linarith

theorem kAcosXValues512_zero : kAcosXValues 512 40 0 = 2587255 := by
  unfold kAcosXValues
  rw [acosNode512_zero, pythonInt_of_nonneg (by positivity)]
  rw [Int.floor_eq_iff]
  obtain ⟨hsl, hsu⟩ := sin_pi2048_bounds
  have hs0 : (0 : ℝ) ≤ Real.sin (Real.pi / 2048) := le_trans (by norm_num) hsl
  have h2l : ((15339801859963059892388 : ℝ) / 10 ^ 25) ^ 2 ≤ Real.sin (Real.pi / 2048) ^ 2 :=
    pow_le_pow_left₀ (by norm_num) hsl 2
  have h2u : Real.sin (Real.pi / 2048) ^ 2 ≤ ((15339801865730836728372 : ℝ) / 10 ^ 25) ^ 2 :=
    pow_le_pow_left₀ hs0 hsu 2
  constructor
  · have hrat : (2587255 : ℝ) ≤ ((15339801859963059892388 : ℝ) / 10 ^ 25) ^ 2 * 2 ^ 40 := by
      norm_num
    push_cast
    nlinarith
  · have hrat : ((15339801865730836728372 : ℝ) / 10 ^ 25) ^ 2 * 2 ^ 40 < 2587255 + 1 := by
      norm_num
    push_cast
    nlinarith

theorem kAcosXValues512_one : kAcosXValues 512 40 1 = 23285153 := by
  unfold kAcosXValues
  rw [acosNode512_one, pythonInt_of_nonneg (by positivity)]
  rw [Int.floor_eq_iff]
  obtain ⟨hsl, hsu⟩ := sin_3pi2048_bounds
  have hs0 : (0 : ℝ) ≤ Real.sin (3 * (Real.pi / 2048)) := le_trans (by norm_num) hsl
  have h2l : ((46019261195831837544288 : ℝ) / 10 ^ 25) ^ 2 ≤
      Real.sin (3 * (Real.pi / 2048)) ^ 2 := pow_le_pow_left₀ (by norm_num) hsl 2
  have h2u : Real.sin (3 * (Real.pi / 2048)) ^ 2 ≤
      ((46019261213135330917778 : ℝ) / 10 ^ 25) ^ 2 := pow_le_pow_left₀ hs0 hsu 2
  constructor
  · have hrat : (23285153 : ℝ) ≤ ((46019261195831837544288 : ℝ) / 10 ^ 25) ^ 2 * 2 ^ 40 := by
      norm_num
    push_cast
    nlinarith
  · have hrat : ((46019261213135330917778 : ℝ) / 10 ^ 25) ^ 2 * 2 ^ 40 < 23285153 + 1 := by
      norm_num
    push_cast
    nlinarith

theorem self_le_arcsin {v : ℝ} (h0 : 0 ≤ v) (h1 : v ≤ 1) : v ≤ Real.arcsin v := by
  rcases eq_or_lt_of_le h0 with he | hp
  · rw [← he, Real.arcsin_zero]
  · have hs : Real.sin (Real.arcsin v) = v := Real.sin_arcsin (by linarith) h1
    have hpos : 0 < Real.arcsin v := Real.arcsin_pos.mpr hp
    have hlt := Real.sin_lt hpos
    rw [hs] at hlt
    linarith

theorem arcsin_le_add_cube {v : ℝ} (h0 : 0 < v) (hv : v ≤ 1 / 2) :
    Real.arcsin v ≤ v + v ^ 3 / 3 := by
  have hc0 : 0 < v + v ^ 3 / 3 := by positivity
  have hv2 : v ^ 2 ≤ 1 / 4 := by nlinarith
  have hv3 : v ^ 3 ≤ v / 4 := by nlinarith [mul_le_mul_of_nonneg_left hv2 h0.le]
  have hc1 : v + v ^ 3 / 3 ≤ 1 := by nlinarith
  have hw : v + v ^ 3 / 3 ≤ 13 / 12 * v := by nlinarith
  have hw3 : (v + v ^ 3 / 3) ^ 3 ≤ (13 / 12 * v) ^ 3 := pow_le_pow_left₀ hc0.le hw 3
  have hcube : (v + v ^ 3 / 3) ^ 3 / 4 ≤ v ^ 3 / 3 := by nlinarith [pow_pos h0 3]
  have hsin : v ≤ Real.sin (v + v ^ 3 / 3) := by
    have hg := Real.sin_gt_sub_cube hc0 hc1
    nlinarith
  have hmono := Real.monotone_arcsin hsin
  have hpi2 : v + v ^ 3 / 3 ≤ Real.pi / 2 := by nlinarith [Real.pi_gt_three]
  have hneg : -(Real.pi / 2) ≤ v + v ^ 3 / 3 := by nlinarith [Real.pi_gt_three]
  rw [Real.arcsin_sin hneg hpi2] at hmono
  exact hmono

theorem kAcosLut512_zero : kAcosLut 512 40 0 = 1727106238923 := by
  unfold kAcosLut
  rw [acosNode512_zero,
    pythonInt_of_nonneg (mul_nonneg (Real.arccos_nonneg _) (by positivity)),
    Real.arccos_eq_pi_div_two_sub_arcsin, Int.floor_eq_iff]
  obtain ⟨hsl, hsu⟩ := sin_pi2048_bounds
  have hs0 : (0 : ℝ) ≤ Real.sin (Real.pi / 2048) := le_trans (by norm_num) hsl
  have h2l : ((15339801859963059892388 : ℝ) / 10 ^ 25) ^ 2 ≤ Real.sin (Real.pi / 2048) ^ 2 :=
    pow_le_pow_left₀ (by norm_num) hsl 2
  have h2u : Real.sin (Real.pi / 2048) ^ 2 ≤ ((15339801865730836728372 : ℝ) / 10 ^ 25) ^ 2 :=
    pow_le_pow_left₀ hs0 hsu 2
  have hv0 : (0 : ℝ) < Real.sin (Real.pi / 2048) ^ 2 := by nlinarith
  have hv12 : Real.sin (Real.pi / 2048) ^ 2 ≤ 1 / 2 := by nlinarith
  have harcl := self_le_arcsin hv0.le (by linarith)
  have harcu := arcsin_le_add_cube hv0 hv12
  have h6u : (Real.sin (Real.pi / 2048) ^ 2) ^ 3 ≤
      (((15339801865730836728372 : ℝ) / 10 ^ 25) ^ 2) ^ 3 :=
    pow_le_pow_left₀ hv0.le h2u 3
  have hpl := Real.pi_gt_d20
  have hpu := Real.pi_lt_d20
  constructor
  · have hrat : (1727106238923 : ℝ) ≤
        ((314159265358979323846 : ℝ) / 10 ^ 20 / 2 -
          ((15339801865730836728372 : ℝ) / 10 ^ 25) ^ 2 -
          (((15339801865730836728372 : ℝ) / 10 ^ 25) ^ 2) ^ 3 / 3) * 2 ^ 40 := by
      norm_num
    push_cast
    nlinarith
  · have hrat : ((314159265358979323847 : ℝ) / 10 ^ 20 / 2 -
        ((15339801859963059892388 : ℝ) / 10 ^ 25) ^ 2) * 2 ^ 40 < 1727106238923 + 1 := by
      norm_num
    push_cast
    nlinarith

theorem kAcosLut512_one :
    1727085541024 ≤ kAcosLut 512 40 1 ∧ kAcosLut 512 40 1 ≤ 1727085541025 := by
  unfold kAcosLut
  rw [acosNode512_one,
    pythonInt_of_nonneg (mul_nonneg (Real.arccos_nonneg _) (by positivity)),
    Real.arccos_eq_pi_div_two_sub_arcsin]
  obtain ⟨hsl, hsu⟩ := sin_3pi2048_bounds
  have hs0 : (0 : ℝ) ≤ Real.sin (3 * (Real.pi / 2048)) := le_trans (by norm_num) hsl
  have h2l : ((46019261195831837544288 : ℝ) / 10 ^ 25) ^ 2 ≤
      Real.sin (3 * (Real.pi / 2048)) ^ 2 := pow_le_pow_left₀ (by norm_num) hsl 2
  have h2u : Real.sin (3 * (Real.pi / 2048)) ^ 2 ≤
      ((46019261213135330917778 : ℝ) / 10 ^ 25) ^ 2 := pow_le_pow_left₀ hs0 hsu 2
  have hv0 : (0 : ℝ) < Real.sin (3 * (Real.pi / 2048)) ^ 2 := by nlinarith
  have hv12 : Real.sin (3 * (Real.pi / 2048)) ^ 2 ≤ 1 / 2 := by nlinarith
  have harcl := self_le_arcsin hv0.le (by linarith)
  have harcu := arcsin_le_add_cube hv0 hv12
  have h6u : (Real.sin (3 * (Real.pi / 2048)) ^ 2) ^ 3 ≤
      (((46019261213135330917778 : ℝ) / 10 ^ 25) ^ 2) ^ 3 :=
    pow_le_pow_left₀ hv0.le h2u 3
  have hpl := Real.pi_gt_d20
  have hpu := Real.pi_lt_d20
  constructor
  · rw [Int.le_floor]
    have hrat : (1727085541024 : ℝ) ≤
        ((314159265358979323846 : ℝ) / 10 ^ 20 / 2 -
          ((46019261213135330917778 : ℝ) / 10 ^ 25) ^ 2 -
          (((46019261213135330917778 : ℝ) / 10 ^ 25) ^ 2) ^ 3 / 3) * 2 ^ 40 := by
      norm_num
    push_cast
    nlinarith
  · have hlt : ((Real.pi / 2 - Real.arcsin (Real.sin (3 * (Real.pi / 2048)) ^ 2)) * 2 ^ 40 : ℝ)
        < ((1727085541026 : ℤ) : ℝ) := by
      have hrat : ((314159265358979323847 : ℝ) / 10 ^ 20 / 2 -
          ((46019261195831837544288 : ℝ) / 10 ^ 25) ^ 2) * 2 ^ 40 < 1727085541026 := by
        norm_num
      push_cast
      nlinarith
    have := Int.floor_lt.mpr hlt
    omega

theorem findAcosIndex512_at_zero : FindAcosIndex 512 40 0 40 = 0 := by
  unfold FindAcosIndex
  rw [if_neg (by norm_num), if_pos (le_refl (0 : ℤ))]

/-- The generated `LookupAcos` at `x = 0` (input format = internal format,
default parameters) takes the quadratic extrapolation path below the smallest
Chebyshev node and returns `1727142951709`, about `π/2 + 3.3e-5` in Q23.40 —
not the stored boundary sample `kAcosLut[0] = 1727106238923`. -/
theorem lookupAcos512_at_zero : LookupAcos 512 40 0 40 = 1727142951709 := by
  have hX0 := kAcosXValues512_zero
  have hX1 := kAcosXValues512_one
  have hL0 := kAcosLut512_zero
  obtain ⟨hL1a, hL1b⟩ := kAcosLut512_one
  have hfind := findAcosIndex512_at_zero
  have hL1 : kAcosLut 512 40 1 = 1727085541024 ∨ kAcosLut 512 40 1 = 1727085541025 := by
    omega
  rcases hL1 with h | h <;>
    norm_num [LookupAcos, lookupAcosCore, convertFp_zero, hfind, hX0, hX1, hL0, h,
      fixed64Mul, fixed64Div, convertFp]

/-- The generated `LookupAcos` at `x = 1.0` (input format = internal format)
returns exactly 0 through the extreme-value path. -/
theorem lookupAcos512_at_one : LookupAcos 512 40 (2 ^ 40) 40 = 0 := by
  norm_num [LookupAcos, lookupAcosCore, convertFp, convertFp_zero]

/-- Claim C2 (counterexample): at the default parameters (512 entries,
40 fraction bits) and `input_fraction_bits` equal to the internal count, the
generated `LookupAcos` at `x = 0.0` does NOT return the stored π/2 boundary
sample `kAcosLut[0]`: `0` lies strictly below the smallest Chebyshev node
`kAcosXValues[0] = 2587255`, so the exact-match path misses and the
evaluator extrapolates. -/
theorem c2_counterexample : LookupAcos 512 40 0 40 ≠ kAcosLut 512 40 0 := by
  rw [lookupAcos512_at_zero, kAcosLut512_zero]
  norm_num

/-- Claim C2 (amended): `LookupAcos` returns exactly 0 at `x = 1.0`; at
`x = 0.0` it returns a quadratically extrapolated value that is strictly
larger than the stored boundary sample `kAcosLut[0]` (the sample is
`acos(x_min) < π/2`, while the extrapolation lands slightly above π/2). -/
theorem c2_acos_boundary_behavior :
    LookupAcos 512 40 (2 ^ 40) 40 = 0 ∧
    kAcosLut 512 40 0 < LookupAcos 512 40 0 40 := by
  refine ⟨lookupAcos512_at_one, ?_⟩
  rw [lookupAcos512_at_zero, kAcosLut512_zero]
  norm_num

/-- Claim C9: in the generated `LookupSin` (Hermite version), the index clamp
guarantees `0 ≤ idx ≤ 510`, hence `cos_idx = 511 - idx ∈ [1, 511]`; the
fallback branch `m1 = 0` for `cos_idx ≤ 0` is unreachable (the derivative is
always read from the table at `cos_idx - 1 ∈ [0, 510]`), and all table
accesses `idx`, `idx + 1`, `cos_idx`, `cos_idx - 1` lie within `[0, 511]`,
for every input and fraction-bit count. -/
theorem c9_sin_indices_in_bounds (K : ℕ) (x : ℤ) (F : ℕ) :
    (0 ≤ sinClampIdx K x F ∧ sinClampIdx K x F + 1 ≤ 511) ∧
    (1 ≤ sinCosIdx K x F ∧ sinCosIdx K x F ≤ 511) ∧
    sinM1 K x F = kSinLut K (sinCosIdx K x F - 1) := by
  have hb : 0 ≤ sinClampIdx K x F ∧ sinClampIdx K x F ≤ 510 := by
    simp only [sinClampIdx]
    split_ifs with h1 h2 <;> omega
  have hc : 1 ≤ sinCosIdx K x F ∧ sinCosIdx K x F ≤ 511 := by
    unfold sinCosIdx
    omega
  refine ⟨⟨hb.1, by omega⟩, hc, ?_⟩
  unfold sinM1
  rw [if_pos (by omega)]

/-- Claim C8: for every input `x ≤ 0` and every input fraction-bit count,
both generated log2 evaluators return the `INT64_MIN` sentinel through the
guarded early branch (they are total functions: no trap or fault). -/
theorem c8_log2_sentinel (K ts : ℕ) (x : ℤ) (F : ℕ) (hx : x ≤ 0) :
    LookupLog2Fast K ts x F = kInt64Min ∧ LookupLog2 K ts x F = kInt64Min := by
  have hc : convertFp x F K ≤ 0 := convertFp_nonpos F K hx
  constructor
  · simp only [LookupLog2Fast]
    rw [if_pos hc]
  · simp only [LookupLog2]
    rw [if_pos hc]

/-- Witness for C8 at `K = 40, ts = 256, x = -1, F = 7`. -/
theorem c8_log2_sentinel_witness :
    LookupLog2Fast 40 256 (-1) 7 = kInt64Min ∧ LookupLog2 40 256 (-1) 7 = kInt64Min :=
  c8_log2_sentinel 40 256 (-1) 7 (by decide)

/-- Claim C10: for every non-negative ratio bounded by `2^P` and every
precision `P`, the table index computed by the generated `LookupAtan2Table`
lies, after clamping, in `[0, 254]`, so both accesses `kAtan2LUT[index]` and
`kAtan2LUT[index + 1]` are within the 256-entry table (the proof uses
`0 ≤ ratio`; the generated code has no guard against negative ratios). -/
theorem c10_atan2_index_in_bounds (ra : ℤ) (P : ℕ) (h0 : 0 ≤ ra) (h1 : ra ≤ 2 ^ P) :
    0 ≤ atan2Index ra P ∧ atan2Index ra P + 1 ≤ 255 := by
  have hk : kIndexScale = 16843009 := by decide
  have hform : atan2ScaledX ra P = (if 2 ^ 32 ≤ (if 32 < P then ra / 2 ^ (P - 32)
      else if P < 32 then ra * 2 ^ (32 - P) else ra) then 2 ^ 32 - 1
      else (if 32 < P then ra / 2 ^ (P - 32) else if P < 32 then ra * 2 ^ (32 - P) else ra)) := by
    simp only [atan2ScaledX]
  have hinner : 0 ≤ (if 32 < P then ra / 2 ^ (P - 32)
      else if P < 32 then ra * 2 ^ (32 - P) else ra) := by
    split_ifs with ha hb
    · exact Int.ediv_nonneg h0 (by positivity)
    · exact mul_nonneg h0 (by positivity)
    · exact h0
  have hs0 : 0 ≤ atan2ScaledX ra P := by
    rw [hform]
    by_cases h : 2 ^ 32 ≤ (if 32 < P then ra / 2 ^ (P - 32)
        else if P < 32 then ra * 2 ^ (32 - P) else ra)
    · rw [if_pos h]
      norm_num
    · rw [if_neg h]
      exact hinner
  have hsb : atan2ScaledX ra P ≤ 2 ^ 32 - 1 := by
    rw [hform]
    by_cases h : 2 ^ 32 ≤ (if 32 < P then ra / 2 ^ (P - 32)
        else if P < 32 then ra * 2 ^ (32 - P) else ra)
    · rw [if_pos h]
    · rw [if_neg h]
      omega
  have htd : Int.tdiv (atan2ScaledX ra P) kIndexScale =
      atan2ScaledX ra P / kIndexScale := Int.tdiv_eq_ediv hs0 (by rw [hk]; norm_num)
  have hi0 : 0 ≤ atan2ScaledX ra P / kIndexScale :=
    Int.ediv_nonneg hs0 (by rw [hk]; norm_num)
  have hib : atan2ScaledX ra P / kIndexScale ≤ 255 := by
    rw [hk]
    calc atan2ScaledX ra P / 16843009 ≤ (2 ^ 32 - 1) / 16843009 :=
          Int.ediv_le_ediv (by norm_num) hsb
      _ = 255 := by decide
  simp only [atan2Index]
  rw [htd]
  split_ifs with h
  · omega
  · omega

/-- Witness for C10 at `ratio = 4, P = 2` (a ratio of exactly 1.0). -/
theorem c10_atan2_index_in_bounds_witness :
    0 ≤ atan2Index 4 2 ∧ atan2Index 4 2 + 1 ≤ 255 :=
  c10_atan2_index_in_bounds 4 2 (by decide) (by decide)

/-! Claim C3: table-entry truncation behavior of the five value-table
generators. -/

/-- Claim C3 (counterexample): the tan generator does not always store the
truncation of `reference · 2^K`: samples whose tan value exceeds the Q-format
maximum are capped first.  At the sample angle `π/2 - 2^-30` (the program's
final sample lies even closer to π/2, within `10^-99` of it), the stored
entry is the capped `INT64_MAX = 2^63 - 1`, while the truncated reference
is at least `2^69`. -/
theorem c3_counterexample :
    tanEntryAt 23 40 (Real.pi / 2 - 1 / 2 ^ 30) ≠
      pythonInt (Real.tan (Real.pi / 2 - 1 / 2 ^ 30) * 2 ^ 40) := by
  have hpi := Real.pi_gt_three
  have he0 : (0 : ℝ) < 1 / 2 ^ 30 := by norm_num
  have he2 : (1 : ℝ) / 2 ^ 30 < Real.pi / 2 := by nlinarith
  have htp : 0 < Real.tan (1 / 2 ^ 30) :=
    Real.tan_pos_of_pos_of_lt_pi_div_two he0 he2
  -- upper bound tan(2^-30) ≤ 2^-29 via sin < x and cos ≥ 1/2
  have hsin : Real.sin (1 / 2 ^ 30) < 1 / 2 ^ 30 := Real.sin_lt he0
  have hcosb := Real.cos_bound (x := 1 / 2 ^ 30) (by rw [abs_of_pos he0]; norm_num)
  rw [abs_le, abs_of_pos he0] at hcosb
  have hcos : (1 : ℝ) / 2 ≤ Real.cos (1 / 2 ^ 30) := by
    have h1 := hcosb.1
    nlinarith
  have htu : Real.tan (1 / 2 ^ 30) ≤ 1 / 2 ^ 29 := by
    rw [Real.tan_eq_sin_div_cos]
    rw [div_le_iff₀ (by linarith)]
    have hs0 : 0 ≤ Real.sin (1 / 2 ^ 30) := by
      apply Real.sin_nonneg_of_nonneg_of_le_pi he0.le
      nlinarith
    nlinarith
  have htan0 : Real.tan (Real.pi / 2 - 1 / 2 ^ 30) = (Real.tan (1 / 2 ^ 30))⁻¹ :=
    Real.tan_pi_div_two_sub _
  have hbig : (2 : ℝ) ^ 29 ≤ Real.tan (Real.pi / 2 - 1 / 2 ^ 30) := by
    rw [htan0, ← one_div]
    have h2 := one_div_le_one_div_of_le htp htu
    rw [one_div_one_div] at h2
    exact h2
  have hmaxval : tanMaxValue 23 40 * 2 ^ 40 = (((2 : ℤ) ^ 63 - 1 : ℤ) : ℝ) := by
    unfold tanMaxValue
    push_cast
    ring_nf
  have hmaxlt : tanMaxValue 23 40 < 2 ^ 29 := by
    unfold tanMaxValue
    norm_num
  have hmin : min (Real.tan (Real.pi / 2 - 1 / 2 ^ 30)) (tanMaxValue 23 40) =
      tanMaxValue 23 40 := min_eq_right (by linarith)
  have hlhs : tanEntryAt 23 40 (Real.pi / 2 - 1 / 2 ^ 30) = 2 ^ 63 - 1 := by
    unfold tanEntryAt
    rw [hmin, hmaxval, pythonInt_intCast]
  have hrhs : (2 : ℤ) ^ 69 ≤ pythonInt (Real.tan (Real.pi / 2 - 1 / 2 ^ 30) * 2 ^ 40) := by
    have hle : (((2 : ℤ) ^ 69 : ℤ) : ℝ) ≤ Real.tan (Real.pi / 2 - 1 / 2 ^ 30) * 2 ^ 40 := by
      have hc : (((2 : ℤ) ^ 69 : ℤ) : ℝ) = (2 : ℝ) ^ 29 * 2 ^ 40 := by
        norm_num
      rw [hc]
      exact mul_le_mul_of_nonneg_right hbig (by positivity)
    have hmono := pythonInt_mono hle
    rwa [pythonInt_intCast] at hmono
  rw [hlhs]
  omega

/-- Claim C3 (amended): every acos, atan, sin and log2 table entry is the
truncation toward zero of the exact scaled reference value -- it exceeds
`ref·2^K - 1` and never exceeds `ref·2^K` (the references are non-negative
on the sampled domains); tan entries obey the same bounds whenever the tan
sample does not exceed the Q-format cap (all samples but the last). -/
theorem c3_tables_truncate (n K ts ib : ℕ) (i j l : ℤ) (t : ℝ)
    (hn : 2 ≤ n) (hi0 : 0 ≤ i)
    (hj0 : 0 ≤ j) (hj1 : j ≤ 511)
    (hts : 2 ≤ ts) (hl0 : 0 ≤ l)
    (ht0 : 0 ≤ Real.tan t) (htm : Real.tan t ≤ tanMaxValue ib K) :
    (Real.arccos (acosNode n i) * 2 ^ K - 1 < kAcosLut n K i ∧
      (kAcosLut n K i : ℝ) ≤ Real.arccos (acosNode n i) * 2 ^ K) ∧
    (Real.arctan ((i : ℝ) / ((n : ℝ) - 1)) * 2 ^ K - 1 < kAtanLut n K i ∧
      (kAtanLut n K i : ℝ) ≤ Real.arctan ((i : ℝ) / ((n : ℝ) - 1)) * 2 ^ K) ∧
    (Real.sin ((j : ℝ) * (Real.pi / 2 / 511)) * 2 ^ K - 1 < kSinLut K j ∧
      (kSinLut K j : ℝ) ≤ Real.sin ((j : ℝ) * (Real.pi / 2 / 511)) * 2 ^ K) ∧
    (Real.logb 2 (1 + (l : ℝ) / ((ts : ℝ) - 1)) * 2 ^ K - 1 < kLog2Lut K ts l ∧
      (kLog2Lut K ts l : ℝ) ≤ Real.logb 2 (1 + (l : ℝ) / ((ts : ℝ) - 1)) * 2 ^ K) ∧
    (Real.tan t * 2 ^ K - 1 < tanEntryAt ib K t ∧
      (tanEntryAt ib K t : ℝ) ≤ Real.tan t * 2 ^ K) := by
  have hP : (0 : ℝ) < 2 ^ K := by positivity
  have hnr : (0 : ℝ) < (n : ℝ) - 1 := by
    have : (2 : ℝ) ≤ (n : ℝ) := by exact_mod_cast hn
    linarith
  have htsr : (0 : ℝ) < (ts : ℝ) - 1 := by
    have : (2 : ℝ) ≤ (ts : ℝ) := by exact_mod_cast hts
    linarith
  have hacos : 0 ≤ Real.arccos (acosNode n i) * 2 ^ K :=
    mul_nonneg (Real.arccos_nonneg _) hP.le
  have hir : (0 : ℝ) ≤ (i : ℝ) := by exact_mod_cast hi0
  have hatan : 0 ≤ Real.arctan ((i : ℝ) / ((n : ℝ) - 1)) * 2 ^ K :=
    mul_nonneg (arctan_nonneg_of_nonneg (div_nonneg hir hnr.le)) hP.le
  have hjr : (0 : ℝ) ≤ (j : ℝ) := by exact_mod_cast hj0
  have hjr1 : (j : ℝ) ≤ 511 := by exact_mod_cast hj1
  have hsinarg1 : (j : ℝ) * (Real.pi / 2 / 511) ≤ Real.pi := by
    have hq : (0 : ℝ) < Real.pi / 2 / 511 := by positivity
    have := mul_le_mul_of_nonneg_right hjr1 hq.le
    have hpi := Real.pi_pos
    nlinarith
  have hsin : 0 ≤ Real.sin ((j : ℝ) * (Real.pi / 2 / 511)) * 2 ^ K :=
    mul_nonneg (Real.sin_nonneg_of_nonneg_of_le_pi (by positivity) hsinarg1) hP.le
  have hlr : (0 : ℝ) ≤ (l : ℝ) := by exact_mod_cast hl0
  have hlog : 0 ≤ Real.logb 2 (1 + (l : ℝ) / ((ts : ℝ) - 1)) * 2 ^ K :=
    mul_nonneg (Real.logb_nonneg (by norm_num)
      (by linarith [div_nonneg hlr htsr.le])) hP.le
  have htanv : 0 ≤ Real.tan t * 2 ^ K := mul_nonneg ht0 hP.le
  have htmin : min (Real.tan t) (tanMaxValue ib K) = Real.tan t := min_eq_left htm
  refine ⟨⟨?_, ?_⟩, ⟨?_, ?_⟩, ⟨?_, ?_⟩, ⟨?_, ?_⟩, ⟨?_, ?_⟩⟩
  · have := lt_pythonInt_cast hacos
    unfold kAcosLut
    linarith
  · unfold kAcosLut
    exact pythonInt_cast_le hacos
  · have := lt_pythonInt_cast hatan
    unfold kAtanLut
    linarith
  · unfold kAtanLut
    exact pythonInt_cast_le hatan
  · have := lt_pythonInt_cast hsin
    unfold kSinLut
    linarith
  · unfold kSinLut
    exact pythonInt_cast_le hsin
  · have := lt_pythonInt_cast hlog
    unfold kLog2Lut
    linarith
  · unfold kLog2Lut
    exact pythonInt_cast_le hlog
  · have h := lt_pythonInt_cast htanv
    unfold tanEntryAt
    rw [htmin]
    linarith
  · unfold tanEntryAt
    rw [htmin]
    exact pythonInt_cast_le htanv

/-- Witness for the amended C3 at `n = 512, K = 40, ts = 256, ib = 23`,
index 0 in every table, and tan sample angle `t = 0`. -/
theorem c3_tables_truncate_witness :
    (Real.arccos (acosNode 512 0) * 2 ^ 40 - 1 < kAcosLut 512 40 0 ∧
      (kAcosLut 512 40 0 : ℝ) ≤ Real.arccos (acosNode 512 0) * 2 ^ 40) ∧
    (Real.arctan (((0 : ℤ) : ℝ) / (((512 : ℕ) : ℝ) - 1)) * 2 ^ 40 - 1 < kAtanLut 512 40 0 ∧
      (kAtanLut 512 40 0 : ℝ) ≤ Real.arctan (((0 : ℤ) : ℝ) / (((512 : ℕ) : ℝ) - 1)) * 2 ^ 40) ∧
    (Real.sin (((0 : ℤ) : ℝ) * (Real.pi / 2 / 511)) * 2 ^ 40 - 1 < kSinLut 40 0 ∧
      (kSinLut 40 0 : ℝ) ≤ Real.sin (((0 : ℤ) : ℝ) * (Real.pi / 2 / 511)) * 2 ^ 40) ∧
    (Real.logb 2 (1 + ((0 : ℤ) : ℝ) / (((256 : ℕ) : ℝ) - 1)) * 2 ^ 40 - 1 < kLog2Lut 40 256 0 ∧
      (kLog2Lut 40 256 0 : ℝ) ≤ Real.logb 2 (1 + ((0 : ℤ) : ℝ) / (((256 : ℕ) : ℝ) - 1)) * 2 ^ 40) ∧
    (Real.tan 0 * 2 ^ 40 - 1 < tanEntryAt 23 40 0 ∧
      (tanEntryAt 23 40 0 : ℝ) ≤ Real.tan 0 * 2 ^ 40) :=
  c3_tables_truncate 512 40 256 23 0 0 0 0 (by decide) (by decide) (by decide) (by decide)
    (by decide) (by decide) (by simp [Real.tan_zero])
    (by norm_num [Real.tan_zero, tanMaxValue])

end Fixed64
